import Mathlib

/-!
Shallow embedding of the provider-gateway core of `llmService.js`
(class `LLMService`): provider selection, credential storage, token
estimation, context-limit lookup, smart prompt truncation, and usage
accounting.  Strings are modelled as `List Char`, JS numbers as
`Int`/`ℚ` with explicit floor operations where the source floors.
-/

/-- `PROVIDER_COSTS[p]` (USD per 1K tokens) from `llmService.js`;
`none` models an absent key (`undefined`). -/
def providerCost (p : String) : Option ℚ :=
  if p = "openai" then some (3/100)
  else if p = "gemini" then some (1/100)
  else if p = "llama" then some (2/1000)
  else if p = "deepseek" then some (5/1000)
  else none

/-- JS `a || b` for a numeric `a` that may be `undefined`: `0` is falsy. -/
def jsOrInt (x : Option Int) (d : Int) : Int :=
  match x with
  | some v => if v = 0 then d else v
  | none => d

/-- JS `a || b` for a natural-valued `a` that may be `undefined`: `0` is falsy. -/
def jsOrNat (x : Option Nat) (d : Nat) : Nat :=
  match x with
  | some v => if v = 0 then d else v
  | none => d

/-- JS `a || b` for a string `a` that may be `undefined`: `""` is falsy. -/
def jsOrStr (x : Option String) (d : String) : String :=
  match x with
  | some v => if v = "" then d else v
  | none => d

/-- The mutable fields of an `LLMService` instance. -/
structure GatewayState where
  provider : String
  tokenUsage : Int
  totalCost : ℚ
  openaiKey : String
  geminiKey : String
  llamaKey : String
  deepseekKey : String
  deriving DecidableEq

/-- The constructor: `provider = 'openai'`, both accumulator fields `0`,
keys read from the environment (passed here as explicit parameters). -/
def initState (ok gk lk dk : String) : GatewayState :=
  ⟨"openai", 0, 0, ok, gk, lk, dk⟩

/-- `this.apiKeys[p]`; an unknown provider id yields `""` (undefined is falsy,
exactly like an empty stored key). -/
def apiKey (s : GatewayState) (p : String) : String :=
  if p = "openai" then s.openaiKey
  else if p = "gemini" then s.geminiKey
  else if p = "llama" then s.llamaKey
  else if p = "deepseek" then s.deepseekKey
  else ""

/-- The two pre-I/O error classes of the gateway (`setProvider` /
`setApiKey` throw sites). -/
inductive GatewayError where
  | unsupportedProvider
  | missingCredential
  deriving DecidableEq

/-- `setProvider(provider)`: unknown id throws Unsupported, empty stored key
throws MissingCredential, otherwise the active provider is mutated.  A throw
leaves the state untouched, so the state is returned alongside the error. -/
def setProvider (s : GatewayState) (p : String) : Option GatewayError × GatewayState :=
  match providerCost p with
  | none => (some .unsupportedProvider, s)
  | some _ =>
    if apiKey s p = "" then (some .missingCredential, s)
    else (none, { s with provider := p })

/-- Field update for `this.apiKeys[p] = k` (known providers only ever reach
this point in the source). -/
def withApiKey (s : GatewayState) (p k : String) : GatewayState :=
  if p = "openai" then { s with openaiKey := k }
  else if p = "gemini" then { s with geminiKey := k }
  else if p = "llama" then { s with llamaKey := k }
  else if p = "deepseek" then { s with deepseekKey := k }
  else s

/-- `setApiKey(provider, apiKey)`: unknown id throws Unsupported, otherwise
overwrites the stored key unconditionally. -/
def setApiKey (s : GatewayState) (p k : String) : Option GatewayError × GatewayState :=
  match providerCost p with
  | none => (some .unsupportedProvider, s)
  | some _ => (none, withApiKey s p k)

/-- `_estimateTokens(text)`: embeds `Math.ceil(text.length / 4)`. -/
def estimateTokens (text : List Char) : Nat :=
  (text.length + 3) / 4

/-- The four provider ids present in the `limits` table of
`_getContextLimits`. -/
def knownLimitProvider (p : String) : Bool :=
  p = "openai" || p = "gemini" || p = "llama" || p = "deepseek"

/-- The named model rows of `limits[p]` in `_getContextLimits`. -/
def limitEntries (p : String) : List (String × Nat) :=
  if p = "openai" then
    [("gpt-4", 8192), ("gpt-4-turbo", 128000), ("gpt-4-1106-preview", 128000),
     ("gpt-3.5-turbo", 16384), ("gpt-3.5-turbo-16k", 16384)]
  else if p = "gemini" then [("gemini-pro", 32768)]
  else if p = "llama" then [("llama-2-70b-chat", 4096)]
  else if p = "deepseek" then [("deepseek-chat", 32768)]
  else []

/-- The `'default'` row of `limits[p]` in `_getContextLimits`. -/
def limitDefault (p : String) : Nat :=
  if p = "openai" then 4096
  else if p = "gemini" then 32768
  else if p = "llama" then 4096
  else if p = "deepseek" then 32768
  else 0

/-- `_getContextLimits(provider, model)`:
`const providerLimits = limits[provider] || limits.openai;
 return providerLimits[model] || providerLimits.default;`. -/
def getContextLimits (p m : String) : Nat :=
  let pr := if knownLimitProvider p then p else "openai"
  jsOrNat ((limitEntries pr).lookup m) (limitDefault pr)

/-- `_getDefaultModel()`: `defaults[this.provider] || 'gpt-3.5-turbo'`. -/
def defaultModelFor (p : String) : String :=
  let d : Option String :=
    if p = "openai" then some "gpt-3.5-turbo"
    else if p = "gemini" then some "gemini-pro"
    else if p = "llama" then some "llama-2-70b-chat"
    else if p = "deepseek" then some "deepseek-chat"
    else none
  jsOrStr d "gpt-3.5-turbo"

/-- `_trackUsage(tokens)`:
`this.tokenUsage += tokens;
 this.totalCost += (tokens / 1000) * PROVIDER_COSTS[this.provider];`. -/
def trackUsage (t : Int) (s : GatewayState) : GatewayState :=
  { s with
    tokenUsage := s.tokenUsage + t,
    totalCost := s.totalCost + ((t : ℚ) / 1000) * ((providerCost s.provider).getD 0) }

/-- `resetUsage()`: zeroes both accumulator fields. -/
def resetUsage (s : GatewayState) : GatewayState :=
  { s with tokenUsage := 0, totalCost := 0 }

/-- Left-pads a numeral with zeros, used to render the fractional digits of
`toFixed`. -/
def padLeftZeros (s : String) (n : Nat) : String :=
  String.mk (List.replicate (n - s.length) '0') ++ s

/-- `x.toFixed(4)` for the non-negative cost values the gateway produces:
round half up to an integer number of ten-thousandths, then print. -/
def toFixed4 (q : ℚ) : String :=
  let m : Int := ⌊q * 10000 + 1/2⌋
  toString (m / 10000) ++ "." ++ padLeftZeros (toString (m % 10000).toNat) 4

/-- The record returned by `getUsage()`. -/
structure UsageSnapshot where
  provider : String
  tokens : Int
  cost : String
  deriving DecidableEq

/-- `getUsage()`: snapshot of the accumulator, cost rendered with
`toFixed(4)`. -/
def getUsage (s : GatewayState) : UsageSnapshot :=
  ⟨s.provider, s.tokenUsage, toFixed4 s.totalCost⟩

/-- The state-mutating operations of the gateway's public surface, used to
enumerate reachable states. -/
inductive GatewayOp where
  | track (n : Nat)
  | reset
  | selectProvider (p : String)
  | setKey (p k : String)

/-- Runs one operation; a thrown error leaves the state untouched. -/
def runOp (s : GatewayState) : GatewayOp → GatewayState
  | .track n => trackUsage (n : Int) s
  | .reset => resetUsage s
  | .selectProvider p => (setProvider s p).2
  | .setKey p k => (setApiKey s p k).2

/-- JS `s.lastIndexOf(sep)` on a `List Char` string: the largest index at
which `sep` occurs (an occurrence may start at any position up to the
length), or `-1` when there is none. -/
def lastIndexOf (sep s : List Char) : Int :=
  match ((List.range (s.length + 1)).filter (fun i => sep.isPrefixOf (s.drop i))).getLast? with
  | some i => (i : Int)
  | none => -1

/-- JS `String.prototype.trim` restricted to the whitespace characters that
occur in this code base (space, tab, carriage return, line feed). -/
def jsTrim (s : List Char) : List Char :=
  ((s.dropWhile Char.isWhitespace).reverse.dropWhile Char.isWhitespace).reverse

/-- The fixed notice appended by `_truncateText`. -/
def truncationNotice : List Char :=
  "\n\n[Note: Document was truncated due to length constraints]".data

/-- The `boundaries` array of `_truncateText`: separator and weight, in
source order. -/
def boundarySeps : List (List Char × ℚ) :=
  [("\n\n".data, 1), (". ".data, 9/10), ("\n".data, 8/10), (", ".data, 6/10), (" ".data, 5/10)]

/-- One iteration of the boundary loop of `_truncateText`:
`lastIndex > maxChars * 0.7` guards, `score = weight * (lastIndex / maxChars)`,
and a strictly better score replaces the current best cut point
(`lastIndex + boundary.char.length`). -/
def boundaryStep (tr : List Char) (maxChars : Int) (acc : ℚ × Int) (b : List Char × ℚ) : ℚ × Int :=
  let li := lastIndexOf b.1 tr
  if 10 * li > 7 * maxChars then
    let score := b.2 * ((li : ℚ) / (maxChars : ℚ))
    if acc.1 < score then (score, li + (b.1.length : Int)) else acc
  else acc

/-- The boundary search of `_truncateText`: starts from
`(bestScore, bestCutPoint) = (0, maxChars)` and folds the boundary list. -/
def bestCutPoint (text : List Char) (maxChars : Int) : Int :=
  (boundarySeps.foldl (boundaryStep (text.take maxChars.toNat) maxChars) (0, maxChars)).2

/-- The record `{text, wasTruncated}` returned by `_truncateText`. -/
structure TruncResult where
  text : List Char
  wasTruncated : Bool
  deriving DecidableEq

/-- `_truncateText(text, maxTokens)`.  `maxChars = Math.floor(maxTokens * 3.5)`
is embedded as `(7 * maxTokens).fdiv 2`; `text.substring(0, k)` clamps a
negative bound to `0`, which `Int.toNat` reproduces. -/
def truncateText (text : List Char) (maxTokens : Int) : TruncResult :=
  if (estimateTokens text : Int) ≤ maxTokens then ⟨text, false⟩
  else
    let maxChars : Int := (7 * maxTokens).fdiv 2
    if (text.length : Int) ≤ maxChars then ⟨text, false⟩
    else
      let cut := bestCutPoint text maxChars
      ⟨jsTrim (text.take cut.toNat) ++ truncationNotice, true⟩

/-- The per-call options consumed by `sendPrompt` (`options.model`,
`options.max_tokens`); fields the budget computation ignores are omitted. -/
structure SendOptions where
  model : Option String := none
  max_tokens : Option Int := none
  deriving DecidableEq

/-- `options.model || this._getDefaultModel()` in `sendPrompt`. -/
def resolvedModel (p : String) (opts : SendOptions) : String :=
  jsOrStr opts.model (defaultModelFor p)

/-- The prompt-token budget of `sendPrompt`:
`contextLimit - (options.max_tokens || 1000) - 100`. -/
def maxPromptTokens (p : String) (opts : SendOptions) : Int :=
  (getContextLimits p (resolvedModel p opts) : Int) - jsOrInt opts.max_tokens 1000 - 100

/-- The response fields that the token-accounting code inspects: the
provider-reported `usage.total_tokens` (when present) and the completion
text (when present). -/
structure ProviderResponse where
  usage_total_tokens : Option Int := none
  candidateText : Option String := none
  deriving DecidableEq

/-- `_callGemini`: `tokensUsed = estimateTokens(prompt + (candidates?.[0]?.content?.parts?.[0]?.text || ''))`. -/
def geminiTokensUsed (prompt : List Char) (resp : ProviderResponse) : Int :=
  (estimateTokens (prompt ++ (jsOrStr resp.candidateText "").data) : Int)

/-- `_callLlama`: `tokensUsed = res.data.usage?.total_tokens || this._estimateTokens(prompt)`. -/
def llamaTokensUsed (prompt : List Char) (resp : ProviderResponse) : Int :=
  jsOrInt resp.usage_total_tokens (estimateTokens prompt : Int)

/-- `_callDeepSeek`: `tokensUsed = res.data.usage?.total_tokens || this._estimateTokens(prompt)`. -/
def deepseekTokensUsed (prompt : List Char) (resp : ProviderResponse) : Int :=
  jsOrInt resp.usage_total_tokens (estimateTokens prompt : Int)

/-- The `tokensUsed` assignment of the provider switch in `sendPrompt`:
`response.usage?.total_tokens || 0` for openai and
`response.tokensUsed || 0` for the other three branches. -/
def tokensUsedFor (p : String) (prompt : List Char) (resp : ProviderResponse) : Int :=
  if p = "openai" then jsOrInt resp.usage_total_tokens 0
  else if p = "gemini" then jsOrInt (some (geminiTokensUsed prompt resp)) 0
  else if p = "llama" then jsOrInt (some (llamaTokensUsed prompt resp)) 0
  else if p = "deepseek" then jsOrInt (some (deepseekTokensUsed prompt resp)) 0
  else 0

/-- The success path of `sendPrompt` after the provider call returned:
the prompt was already truncated to the computed budget, the branch-specific
`tokensUsed` is extracted from the response, and `_trackUsage` is applied.
Returns the updated state together with the extracted `tokensUsed`. -/
def sendPromptSuccess (s : GatewayState) (prompt : List Char) (opts : SendOptions)
    (resp : ProviderResponse) : GatewayState × Int :=
  let processed := (truncateText prompt (maxPromptTokens s.provider opts)).text
  let t := tokensUsedFor s.provider processed resp
  (trackUsage t s, t)

/-- Helper: natural-number ceiling division by 4, as computed by
`estimateTokens`, agrees with the rational ceiling. -/
theorem ceil_quarter (l : Nat) : ⌈(l : ℚ) / 4⌉₊ = (l + 3) / 4 := by
  rcases Nat.eq_zero_or_pos l with h | h
  · subst h; simp
  · set q : Nat := (l + 3) / 4 with hqdef
    have hq1 : l ≤ 4 * q := by omega
    have hq3 : 4 * (q - 1) < l := by omega
    refine le_antisymm ?_ ?_
    · refine Nat.ceil_le.2 ?_
      rw [div_le_iff₀ (by norm_num : (0:ℚ) < 4)]
      calc (l : ℚ) ≤ ((4 * q : Nat) : ℚ) := by exact_mod_cast hq1
        _ = (q : ℚ) * 4 := by push_cast; ring
    · have hlt : (q - 1 : Nat) < ⌈(l : ℚ) / 4⌉₊ := by
        refine Nat.lt_ceil.2 ?_
        rw [lt_div_iff₀ (by norm_num : (0:ℚ) < 4)]
        calc ((q - 1 : Nat) : ℚ) * 4 = ((4 * (q - 1) : Nat) : ℚ) := by push_cast; ring
          _ < (l : ℚ) := by exact_mod_cast hq3
      omega

/-- C8: `estimateTokens` is a pure total function equal to `ceil(length/4)`
for every string, and it returns `0` exactly on the empty string. -/
theorem estimateTokens_is_ceil :
    ∀ s : List Char, estimateTokens s = ⌈(s.length : ℚ) / 4⌉₊ ∧ (estimateTokens s = 0 ↔ s = []) := by
  intro s
  refine ⟨(ceil_quarter s.length).symm, ?_⟩
  unfold estimateTokens
  constructor
  · intro h
    have : s.length = 0 := by omega
    exact List.length_eq_zero.1 this
  · intro h
    subst h
    rfl

/-- C6: `setProvider` on a known provider with an empty stored credential
throws the missing-credential error, and on an unknown provider id throws
the unsupported-provider error; in both cases the state is unchanged. -/
theorem setProvider_error_behaviour :
    ∀ (s : GatewayState) (p : String),
      (providerCost p ≠ none → apiKey s p = "" → setProvider s p = (some .missingCredential, s)) ∧
      (providerCost p = none → setProvider s p = (some .unsupportedProvider, s)) := by
  intro s p
  constructor
  · intro hk he
    unfold setProvider
    cases h : providerCost p with
    | none => exact absurd h hk
    | some c => simp [he]
  · intro h
    unfold setProvider
    rw [h]

/-- Witness for C6: a state with all credentials empty rejects `gemini`
with the missing-credential error and `nope` with the unsupported error. -/
theorem setProvider_error_behaviour_witness :
    setProvider (initState "" "" "" "") "gemini" = (some .missingCredential, initState "" "" "" "") ∧
    setProvider (initState "" "" "" "") "nope" = (some .unsupportedProvider, initState "" "" "" "") :=
  ⟨(setProvider_error_behaviour _ _).1 (by decide) rfl,
   (setProvider_error_behaviour _ _).2 (by decide)⟩

/-- C7: `_getContextLimits` always returns a positive integer; an unknown
model on a known provider yields that provider's default entry, and an
unknown provider falls back to the openai (default provider) table. -/
theorem contextLimit_total_and_fallbacks :
    ∀ p m : String,
      0 < getContextLimits p m ∧
      (knownLimitProvider p = true → (limitEntries p).lookup m = none →
        getContextLimits p m = limitDefault p) ∧
      (knownLimitProvider p = false → getContextLimits p m = getContextLimits "openai" m) := by
  intro p m
  have hdflt : ∀ r : String, knownLimitProvider r = true → 0 < limitDefault r := by
    intro r hr
    simp only [knownLimitProvider, Bool.or_eq_true, decide_eq_true_eq] at hr
    rcases hr with ((h | h) | h) | h <;> subst h <;> decide
  refine ⟨?_, ?_, ?_⟩
  · unfold getContextLimits
    by_cases hk : knownLimitProvider p
    · simp only [hk, if_true]
      cases hl : (limitEntries p).lookup m with
      | none => simpa [jsOrNat, hl] using hdflt p hk
      | some v =>
        by_cases hv : v = 0
        · simpa [jsOrNat, hl, hv] using hdflt p hk
        · simp only [jsOrNat, hl]
          rw [if_neg hv]
          omega
    · simp only [Bool.not_eq_true] at hk
      rw [hk]
      simp only [Bool.false_eq_true, if_false]
      cases hl : (limitEntries "openai").lookup m with
      | none => simpa [jsOrNat, hl] using hdflt "openai" rfl
      | some v =>
        by_cases hv : v = 0
        · simpa [jsOrNat, hl, hv] using hdflt "openai" rfl
        · simp only [jsOrNat, hl]
          rw [if_neg hv]
          omega
  · intro hk hl
    simp [getContextLimits, hk, jsOrNat, hl]
  · intro hk
    unfold getContextLimits
    rw [hk]
    simp [knownLimitProvider]

/-- Witness for C7: the unknown model `zzz` on `gemini` takes the gemini
default, and the unknown provider `nope` takes the openai table. -/
theorem contextLimit_total_and_fallbacks_witness :
    getContextLimits "gemini" "zzz" = limitDefault "gemini" ∧
    getContextLimits "nope" "gpt-4" = getContextLimits "openai" "gpt-4" :=
  ⟨(contextLimit_total_and_fallbacks "gemini" "zzz").2.1 (by decide) (by decide),
   (contextLimit_total_and_fallbacks "nope" "gpt-4").2.2 (by decide)⟩

/-- Helper: a `setProvider` call never changes the accumulator fields. -/
theorem setProvider_snd_usage (s : GatewayState) (p : String) :
    ((setProvider s p).2).tokenUsage = s.tokenUsage ∧ ((setProvider s p).2).totalCost = s.totalCost := by
  unfold setProvider
  cases providerCost p with
  | none => exact ⟨rfl, rfl⟩
  | some c => by_cases h : apiKey s p = "" <;> simp [h]

/-- Helper: a `setApiKey` call never changes the accumulator fields. -/
theorem setApiKey_snd_usage (s : GatewayState) (p k : String) :
    ((setApiKey s p k).2).tokenUsage = s.tokenUsage ∧ ((setApiKey s p k).2).totalCost = s.totalCost := by
  unfold setApiKey withApiKey
  cases providerCost p with
  | none => exact ⟨rfl, rfl⟩
  | some c => split_ifs <;> exact ⟨rfl, rfl⟩

/-- Helper: every per-1K provider rate in the cost table is non-negative. -/
theorem providerRate_nonneg (p : String) : 0 ≤ (providerCost p).getD 0 := by
  unfold providerCost
  split_ifs <;> norm_num

/-- C3: `_trackUsage` adds exactly `(tokens/1000) * PROVIDER_COSTS[active]`
to the cost using the provider active at the call, switching providers
never changes already-recorded usage, and the concrete two-call session on
gemini (priced 0.01/1K) reports 2000 tokens and cost `"0.0200"`. -/
theorem usage_cost_accounting :
    (∀ (s : GatewayState) (t : Int),
        (trackUsage t s).tokenUsage = s.tokenUsage + t ∧
        (trackUsage t s).totalCost
          = s.totalCost + ((t : ℚ) / 1000) * ((providerCost s.provider).getD 0)) ∧
    (∀ (s : GatewayState) (p : String),
        ((setProvider s p).2).tokenUsage = s.tokenUsage ∧
        ((setProvider s p).2).totalCost = s.totalCost) ∧
    getUsage (trackUsage 1000 (trackUsage 1000 ((setProvider (initState "" "k" "" "") "gemini").2)))
      = ⟨"gemini", 2000, "0.0200"⟩ := by
  refine ⟨fun s t => ⟨rfl, rfl⟩, setProvider_snd_usage, ?_⟩
  have hs : (setProvider (initState "" "k" "" "") "gemini").2
      = ⟨"gemini", 0, 0, "", "k", "", ""⟩ := by
    decide
  rw [hs]
  have hcost : (trackUsage 1000 (trackUsage 1000 (⟨"gemini", 0, 0, "", "k", "", ""⟩ : GatewayState))).totalCost = 1/50 := by
    simp [trackUsage, providerCost]
    norm_num
  have htok : (trackUsage 1000 (trackUsage 1000 (⟨"gemini", 0, 0, "", "k", "", ""⟩ : GatewayState))).tokenUsage = 2000 := by
    simp [trackUsage]
  have hprov : (trackUsage 1000 (trackUsage 1000 (⟨"gemini", 0, 0, "", "k", "", ""⟩ : GatewayState))).provider = "gemini" := by
    simp [trackUsage]
  unfold getUsage
  rw [hcost, htok, hprov]
  have hfix : toFixed4 (1/50) = "0.0200" := by
    unfold toFixed4
    have h : ⌊(1:ℚ)/50 * 10000 + 1/2⌋ = 200 := by norm_num
    rw [h]
    decide
  rw [hfix]

/-- Helper: one gateway operation keeps both accumulator fields
non-negative. -/
theorem runOp_keeps_nonneg (s : GatewayState) (o : GatewayOp)
    (h1 : 0 ≤ s.tokenUsage) (h2 : 0 ≤ s.totalCost) :
    0 ≤ (runOp s o).tokenUsage ∧ 0 ≤ (runOp s o).totalCost := by
  cases o with
  | track n =>
    refine ⟨?_, ?_⟩
    · show 0 ≤ s.tokenUsage + (n : Int)
      omega
    · show 0 ≤ s.totalCost + (((n : Int) : ℚ) / 1000) * ((providerCost s.provider).getD 0)
      have hr := providerRate_nonneg s.provider
      have hn : (0:ℚ) ≤ ((n : Int) : ℚ) / 1000 := by positivity
      nlinarith [mul_nonneg hn hr]
  | reset => exact ⟨le_refl 0, le_refl 0⟩
  | selectProvider p =>
    have h := setProvider_snd_usage s p
    exact ⟨h.1 ▸ h1, h.2 ▸ h2⟩
  | setKey p k =>
    have h := setApiKey_snd_usage s p k
    exact ⟨h.1 ▸ h1, h.2 ▸ h2⟩

/-- Helper: non-negativity of the accumulator is preserved along any
sequence of gateway operations. -/
theorem foldl_runOp_nonneg (ops : List GatewayOp) (s : GatewayState)
    (h1 : 0 ≤ s.tokenUsage) (h2 : 0 ≤ s.totalCost) :
    0 ≤ (ops.foldl runOp s).tokenUsage ∧ 0 ≤ (ops.foldl runOp s).totalCost := by
  induction ops generalizing s with
  | nil => exact ⟨h1, h2⟩
  | cons o rest ih =>
    have h := runOp_keeps_nonneg s o h1 h2
    exact ih (runOp s o) h.1 h.2

/-- C10: from construction onward both accumulator fields stay
non-negative under every operation sequence; a recorded send only grows
them, `resetUsage` zeroes exactly the two fields, and the provider and
credential operations never modify them. -/
theorem accumulator_invariant :
    (∀ (ok gk lk dk : String) (ops : List GatewayOp),
        0 ≤ (ops.foldl runOp (initState ok gk lk dk)).tokenUsage ∧
        0 ≤ (ops.foldl runOp (initState ok gk lk dk)).totalCost) ∧
    (∀ (s : GatewayState) (n : Nat),
        s.tokenUsage ≤ (trackUsage (n : Int) s).tokenUsage ∧
        s.totalCost ≤ (trackUsage (n : Int) s).totalCost) ∧
    (∀ s : GatewayState,
        (resetUsage s).tokenUsage = 0 ∧ (resetUsage s).totalCost = 0 ∧
        (resetUsage s).provider = s.provider) ∧
    (∀ (s : GatewayState) (p : String),
        ((setProvider s p).2).tokenUsage = s.tokenUsage ∧
        ((setProvider s p).2).totalCost = s.totalCost) ∧
    (∀ (s : GatewayState) (p k : String),
        ((setApiKey s p k).2).tokenUsage = s.tokenUsage ∧
        ((setApiKey s p k).2).totalCost = s.totalCost) := by
  refine ⟨?_, ?_, fun s => ⟨rfl, rfl, rfl⟩, setProvider_snd_usage, setApiKey_snd_usage⟩
  · intro ok gk lk dk ops
    exact foldl_runOp_nonneg ops _ (le_refl 0) (le_refl 0)
  · intro s n
    refine ⟨?_, ?_⟩
    · show s.tokenUsage ≤ s.tokenUsage + (n : Int)
      omega
    · show s.totalCost ≤ s.totalCost + (((n : Int) : ℚ) / 1000) * ((providerCost s.provider).getD 0)
      have hr := providerRate_nonneg s.provider
      have hn : (0:ℚ) ≤ ((n : Int) : ℚ) / 1000 := by positivity
      nlinarith [mul_nonneg hn hr]

/-- Modelled from the claim's words: the budget with a nullish (`??`)
default for the max-response-tokens option, under which an explicit `0`
stays `0`.  For comparison with `maxPromptTokens` (the code uses `||`). -/
def nullishPromptBudget (p : String) (opts : SendOptions) : Int :=
  (getContextLimits p (resolvedModel p opts) : Int) - (opts.max_tokens.getD 1000) - 100

/-- Counterexample to C4: with an explicit `max_tokens = 0` on
openai/gpt-4 (context 8192) the code substitutes the default 1000, so the
budget is 7092 and not the 8092 the claim's nullish reading demands. -/
theorem maxPromptTokens_zero_counterexample :
    maxPromptTokens "openai" ⟨some "gpt-4", some 0⟩ = 8192 - 1000 - 100 ∧
    nullishPromptBudget "openai" ⟨some "gpt-4", some 0⟩ = 8192 - 0 - 100 ∧
    maxPromptTokens "openai" ⟨some "gpt-4", some 0⟩
      ≠ nullishPromptBudget "openai" ⟨some "gpt-4", some 0⟩ :=
  ⟨by decide, by decide, by decide⟩

/-- C4 (amended): the budget is `contextLimit - r - 100` where `r` is the
caller's max-response-tokens when present and non-zero, and the default
1000 both when the option is omitted and when it is an explicit `0`. -/
theorem maxPromptTokens_formula :
    ∀ (p : String) (opts : SendOptions),
      (opts.max_tokens = none ∨ opts.max_tokens = some 0 →
        maxPromptTokens p opts = (getContextLimits p (resolvedModel p opts) : Int) - 1000 - 100) ∧
      (∀ v : Int, opts.max_tokens = some v → v ≠ 0 →
        maxPromptTokens p opts = (getContextLimits p (resolvedModel p opts) : Int) - v - 100) := by
  intro p opts
  constructor
  · rintro (h | h) <;> simp [maxPromptTokens, jsOrInt, h]
  · intro v h hv
    simp [maxPromptTokens, jsOrInt, h, hv]

/-- Witness for C4 (amended): explicit `max_tokens = 0` takes the 1000
default. -/
theorem maxPromptTokens_formula_witness :
    maxPromptTokens "openai" ⟨some "gpt-4", some 0⟩
      = (getContextLimits "openai" (resolvedModel "openai" ⟨some "gpt-4", some 0⟩) : Int) - 1000 - 100 :=
  (maxPromptTokens_formula "openai" ⟨some "gpt-4", some 0⟩).1 (Or.inr rfl)

/-- Counterexample to C5: a llama response with no usage report and a
non-empty completion falls back to `estimateTokens(prompt)` alone (here 1),
not to `estimateTokens(prompt + completion)` (here 3) as the claim states. -/
theorem llama_fallback_counterexample :
    tokensUsedFor "llama" "aaaa".data ⟨none, some "bbbbbbbb"⟩ = 1 ∧
    (estimateTokens ("aaaa".data ++ "bbbbbbbb".data) : Int) = 3 ∧
    tokensUsedFor "llama" "aaaa".data ⟨none, some "bbbbbbbb"⟩
      ≠ (estimateTokens ("aaaa".data ++ "bbbbbbbb".data) : Int) :=
  ⟨by decide, by decide, by decide⟩

/-- C5 (amended): on success the token count is the provider-reported
usage field where available; with no report openai falls back to `0`,
llama and deepseek fall back to `estimateTokens` of the prompt alone, and
gemini always uses `estimateTokens` of prompt plus completion; the
accumulator is then updated with that count at the active provider's
rate. -/
theorem tokensUsed_extraction :
    ∀ (prompt : List Char) (resp : ProviderResponse),
      (resp.usage_total_tokens = none → tokensUsedFor "openai" prompt resp = 0) ∧
      (∀ v : Int, resp.usage_total_tokens = some v → v ≠ 0 →
        tokensUsedFor "openai" prompt resp = v ∧
        tokensUsedFor "llama" prompt resp = v ∧
        tokensUsedFor "deepseek" prompt resp = v) ∧
      (tokensUsedFor "gemini" prompt resp
        = (estimateTokens (prompt ++ (jsOrStr resp.candidateText "").data) : Int)) ∧
      (resp.usage_total_tokens = none →
        tokensUsedFor "llama" prompt resp = (estimateTokens prompt : Int) ∧
        tokensUsedFor "deepseek" prompt resp = (estimateTokens prompt : Int)) ∧
      (∀ (s : GatewayState) (opts : SendOptions),
        (sendPromptSuccess s prompt opts resp).1.tokenUsage
          = s.tokenUsage + (sendPromptSuccess s prompt opts resp).2 ∧
        (sendPromptSuccess s prompt opts resp).1.totalCost
          = s.totalCost + (((sendPromptSuccess s prompt opts resp).2 : ℚ) / 1000)
              * ((providerCost s.provider).getD 0)) := by
  intro prompt resp
  refine ⟨?_, ?_, ?_, ?_, fun s opts => ⟨rfl, rfl⟩⟩
  · intro h
    simp [tokensUsedFor, jsOrInt, h]
  · intro v h hv
    refine ⟨?_, ?_, ?_⟩ <;> simp [tokensUsedFor, llamaTokensUsed, deepseekTokensUsed, jsOrInt, h, hv]
  · by_cases h : (estimateTokens (prompt ++ (jsOrStr resp.candidateText "").data) : Int) = 0 <;>
      simp [tokensUsedFor, geminiTokensUsed, jsOrInt, h]
  · intro h
    refine ⟨?_, ?_⟩ <;> simp [tokensUsedFor, llamaTokensUsed, deepseekTokensUsed, jsOrInt, h] <;> omega

/-- Witness for C5 (amended): the llama fallback at a concrete
usage-free response equals the estimate of the prompt alone. -/
theorem tokensUsed_extraction_witness :
    tokensUsedFor "llama" "aaaa".data ⟨none, some "bbbbbbbb"⟩ = (estimateTokens "aaaa".data : Int) :=
  ((tokensUsed_extraction "aaaa".data ⟨none, some "bbbbbbbb"⟩).2.2.2.1 rfl).1

/-- Helper: a boundary whose score does not beat the accumulator leaves the
loop state unchanged. -/
theorem boundaryStep_keep {tr : List Char} {mc : Int} {acc : ℚ × Int} {b : List Char × ℚ}
    (h : ¬ acc.1 < b.2 * ((lastIndexOf b.1 tr : ℚ) / (mc : ℚ))) :
    boundaryStep tr mc acc b = acc := by
  unfold boundaryStep
  by_cases hq : 10 * lastIndexOf b.1 tr > 7 * mc
  · rw [if_pos hq, if_neg h]
  · rw [if_neg hq]

/-- Helper: a boundary that fails the 70%-of-window guard leaves the loop
state unchanged. -/
theorem boundaryStep_skip {tr : List Char} {mc : Int} {acc : ℚ × Int} {b : List Char × ℚ}
    (hq : ¬ 10 * lastIndexOf b.1 tr > 7 * mc) :
    boundaryStep tr mc acc b = acc := by
  unfold boundaryStep
  rw [if_neg hq]

/-- Helper: a qualifying boundary with a strictly better score replaces the
loop state. -/
theorem boundaryStep_take {tr : List Char} {mc : Int} {acc : ℚ × Int} {b : List Char × ℚ}
    (hq : 10 * lastIndexOf b.1 tr > 7 * mc)
    (h : acc.1 < b.2 * ((lastIndexOf b.1 tr : ℚ) / (mc : ℚ))) :
    boundaryStep tr mc acc b
      = (b.2 * ((lastIndexOf b.1 tr : ℚ) / (mc : ℚ)), lastIndexOf b.1 tr + b.1.length) := by
  unfold boundaryStep
  rw [if_pos hq, if_pos h]

/-- C9 (amended): on a non-empty text with a non-positive token budget the
truncation routine does not fail and reports truncation; with budget
exactly `0` the output is exactly the truncation notice, while with a
negative budget the `-1` sentinel of `lastIndexOf` slips past the negative
70%-guard and the trimmed first character of the text survives in front of
the notice. -/
theorem truncate_nonpositive_budget :
    ∀ (text : List Char) (m : Int), text ≠ [] → m ≤ 0 →
      (truncateText text m).wasTruncated = true ∧
      (m = 0 → (truncateText text m).text = truncationNotice) ∧
      (m < 0 → (truncateText text m).text = jsTrim (text.take 1) ++ truncationNotice) := by
  intro text m hne hm
  have hlen : 0 < text.length := List.length_pos.2 hne
  have hest : ¬ ((estimateTokens text : Int) ≤ m) := by
    unfold estimateTokens
    have h1 : 1 ≤ (text.length + 3) / 4 := by omega
    omega
  have efd := Int.fdiv_eq_ediv (7 * m) (by norm_num : (0:Int) ≤ 2)
  have hmc0 : (7 * m).fdiv 2 ≤ 0 := by omega
  have hlen2 : ¬ ((text.length : Int) ≤ (7 * m).fdiv 2) := by
    omega
  have htr : text.take ((7 * m).fdiv 2).toNat = [] := by
    rw [Int.toNat_eq_zero.2 hmc0, List.take_zero]
  refine ⟨?_, ?_, ?_⟩
  · unfold truncateText
    rw [if_neg hest, if_neg hlen2]
  · intro h0
    subst h0
    unfold truncateText
    rw [if_neg hest, if_neg hlen2]
    have hcut : bestCutPoint text ((7 * (0:Int)).fdiv 2) = 0 := by
      unfold bestCutPoint
      rw [show ((7 * (0:Int)).fdiv 2).toNat = 0 from rfl, List.take_zero]
      rw [show boundarySeps = [("\n\n".data, (1:ℚ)), (". ".data, 9/10), ("\n".data, 8/10),
        (", ".data, 6/10), (" ".data, 5/10)] from rfl]
      rw [List.foldl_cons, boundaryStep_skip (by decide), List.foldl_cons,
        boundaryStep_skip (by decide), List.foldl_cons, boundaryStep_skip (by decide),
        List.foldl_cons, boundaryStep_skip (by decide), List.foldl_cons,
        boundaryStep_skip (by decide), List.foldl_nil]
      rfl
    rw [hcut]
    rfl
  · intro hneg
    have hm1 : m ≤ -1 := by omega
    have hmc4 : (7 * m).fdiv 2 ≤ -4 := by omega
    have hmcQ : ((((7 * m).fdiv 2) : Int) : ℚ) < 0 := by
      exact_mod_cast hmc4.trans_lt (by norm_num)
    have hx : (0:ℚ) < (-1 : ℚ) / (((7 * m).fdiv 2 : Int) : ℚ) := by
      apply div_pos_of_neg_of_neg (by norm_num) hmcQ
    unfold truncateText
    rw [if_neg hest, if_neg hlen2]
    have hq : ∀ w : ℚ, 10 * (-1 : Int) > 7 * ((7 * m).fdiv 2) := by
      intro w
      omega
    have hcut : bestCutPoint text ((7 * m).fdiv 2) = 1 := by
      unfold bestCutPoint
      rw [htr]
      rw [show boundarySeps = [("\n\n".data, (1:ℚ)), (". ".data, 9/10), ("\n".data, 8/10),
        (", ".data, 6/10), (" ".data, 5/10)] from rfl]
      have hli1 : lastIndexOf "\n\n".data [] = -1 := by decide
      have hli2 : lastIndexOf ". ".data [] = -1 := by decide
      have hli3 : lastIndexOf "\n".data [] = -1 := by decide
      have hli4 : lastIndexOf ", ".data [] = -1 := by decide
      have hli5 : lastIndexOf " ".data [] = -1 := by decide
      rw [List.foldl_cons,
        boundaryStep_take (by rw [hli1]; exact hq 1) (by rw [hli1]; push_cast; simpa using hx)]
      rw [hli1]
      rw [List.foldl_cons, boundaryStep_keep (by
        rw [hli2]
        push_cast
        rw [not_lt]
        calc (9:ℚ)/10 * ((-1) / (((7 * m).fdiv 2 : Int) : ℚ))
            ≤ 1 * ((-1) / (((7 * m).fdiv 2 : Int) : ℚ)) := by
              apply mul_le_mul_of_nonneg_right (by norm_num) hx.le
          _ = _ := by norm_num)]
      rw [List.foldl_cons, boundaryStep_keep (by
        rw [hli3]
        push_cast
        rw [not_lt]
        calc (8:ℚ)/10 * ((-1) / (((7 * m).fdiv 2 : Int) : ℚ))
            ≤ 1 * ((-1) / (((7 * m).fdiv 2 : Int) : ℚ)) := by
              apply mul_le_mul_of_nonneg_right (by norm_num) hx.le
          _ = _ := by norm_num)]
      rw [List.foldl_cons, boundaryStep_keep (by
        rw [hli4]
        push_cast
        rw [not_lt]
        calc (6:ℚ)/10 * ((-1) / (((7 * m).fdiv 2 : Int) : ℚ))
            ≤ 1 * ((-1) / (((7 * m).fdiv 2 : Int) : ℚ)) := by
              apply mul_le_mul_of_nonneg_right (by norm_num) hx.le
          _ = _ := by norm_num)]
      rw [List.foldl_cons, boundaryStep_keep (by
        rw [hli5]
        push_cast
        rw [not_lt]
        calc (5:ℚ)/10 * ((-1) / (((7 * m).fdiv 2 : Int) : ℚ))
            ≤ 1 * ((-1) / (((7 * m).fdiv 2 : Int) : ℚ)) := by
              apply mul_le_mul_of_nonneg_right (by norm_num) hx.le
          _ = _ := by norm_num)]
      rw [List.foldl_nil]
      show (-1 : Int) + ("\n\n".data.length : Int) = 1
      decide
    rw [hcut]
    rfl

/-- Counterexample to C9: with text `"Hello"` and budget `-1` the output is
`'H'` followed by the notice, not the notice alone as the claim states. -/
theorem truncate_negative_counterexample :
    (truncateText "Hello".data (-1)).text = 'H' :: truncationNotice ∧
    (truncateText "Hello".data (-1)).text ≠ truncationNotice := by
  have hli1 : lastIndexOf "\n\n".data ([] : List Char) = -1 := by decide
  have hli2 : lastIndexOf ". ".data ([] : List Char) = -1 := by decide
  have hli3 : lastIndexOf "\n".data ([] : List Char) = -1 := by decide
  have hli4 : lastIndexOf ", ".data ([] : List Char) = -1 := by decide
  have hli5 : lastIndexOf " ".data ([] : List Char) = -1 := by decide
  have hcut : bestCutPoint "Hello".data ((7 * (-1:Int)).fdiv 2) = 1 := by
    unfold bestCutPoint
    rw [show (((7 * (-1:Int)).fdiv 2).toNat) = 0 from rfl, List.take_zero]
    rw [show boundarySeps = [("\n\n".data, (1:ℚ)), (". ".data, 9/10), ("\n".data, 8/10),
      (", ".data, 6/10), (" ".data, 5/10)] from rfl]
    rw [List.foldl_cons, boundaryStep_take (by rw [hli1]; decide) (by rw [hli1]; push_cast; norm_num)]
    rw [hli1]
    rw [List.foldl_cons, boundaryStep_keep (by rw [hli2]; push_cast; norm_num)]
    rw [List.foldl_cons, boundaryStep_keep (by rw [hli3]; push_cast; norm_num)]
    rw [List.foldl_cons, boundaryStep_keep (by rw [hli4]; push_cast; norm_num)]
    rw [List.foldl_cons, boundaryStep_keep (by rw [hli5]; push_cast; norm_num)]
    rw [List.foldl_nil]
    show (-1 : Int) + ("\n\n".data.length : Int) = 1
    decide
  have h : (truncateText "Hello".data (-1)).text = 'H' :: truncationNotice := by
    unfold truncateText
    rw [if_neg (by decide), if_neg (by decide)]
    rw [hcut]
    rfl
  exact ⟨h, by rw [h]; decide⟩

/-- Witness for C9 (amended): a concrete non-empty text with budget `0`
is reported truncated with the notice as the whole output. -/
theorem truncate_nonpositive_budget_witness :
    (truncateText "Hi".data 0).wasTruncated = true ∧ (truncateText "Hi".data 0).text = truncationNotice :=
  ⟨(truncate_nonpositive_budget "Hi".data 0 (by decide) (le_refl 0)).1,
   (truncate_nonpositive_budget "Hi".data 0 (by decide) (le_refl 0)).2.1 rfl⟩

/-- Helper: `dropWhile` never lengthens a list. -/
theorem length_dropWhile_le {α : Type} (p : α → Bool) (l : List α) :
    (l.dropWhile p).length ≤ l.length := by
  induction l with
  | nil => simp [List.dropWhile]
  | cons a l ih =>
    rw [List.dropWhile]
    cases p a with
    | true => exact le_trans ih (by simp)
    | false => simp

/-- Helper: trimming never lengthens a string. -/
theorem jsTrim_length_le (s : List Char) : (jsTrim s).length ≤ s.length := by
  unfold jsTrim
  rw [List.length_reverse]
  calc ((s.dropWhile Char.isWhitespace).reverse.dropWhile Char.isWhitespace).length
      ≤ (s.dropWhile Char.isWhitespace).reverse.length := length_dropWhile_le _ _
    _ = (s.dropWhile Char.isWhitespace).length := List.length_reverse _
    _ ≤ s.length := length_dropWhile_le _ _

/-- Helper: a found occurrence (non-negative `lastIndexOf`) lies entirely
inside the searched string. -/
theorem lastIndexOf_nonneg_bound (sep s : List Char) (h : 0 ≤ lastIndexOf sep s) :
    lastIndexOf sep s + (sep.length : Int) ≤ (s.length : Int) := by
  unfold lastIndexOf at *
  cases hg : ((List.range (s.length + 1)).filter (fun i => sep.isPrefixOf (s.drop i))).getLast? with
  | none => rw [hg] at h; norm_num at h
  | some i =>
    show (i : Int) + (sep.length : Int) ≤ (s.length : Int)
    have hmem : i ∈ (List.range (s.length + 1)).filter (fun i => sep.isPrefixOf (s.drop i)) := by
      have hx := List.mem_getLast?_eq_getLast (l := (List.range (s.length + 1)).filter
        (fun i => sep.isPrefixOf (s.drop i))) (x := i) (by rw [hg]; rfl)
      rcases hx with ⟨hne, hx⟩
      rw [hx]
      exact List.getLast_mem hne
    rw [List.mem_filter] at hmem
    obtain ⟨hr, hp⟩ := hmem
    rw [List.mem_range] at hr
    have hpre : sep <+: s.drop i := List.isPrefixOf_iff_prefix.1 hp
    have hle : sep.length ≤ (s.drop i).length := hpre.length_le
    rw [List.length_drop] at hle
    omega

/-- Helper: after folding the boundary loop, the best cut point is either
the initial one or `lastIndex + length` for some boundary that passed the
70%-of-window guard. -/
theorem foldl_boundaryStep_cut (tr : List Char) (mc : Int) :
    ∀ (l : List (List Char × ℚ)) (acc : ℚ × Int),
      (l.foldl (boundaryStep tr mc) acc).2 = acc.2 ∨
      ∃ b ∈ l, 10 * lastIndexOf b.1 tr > 7 * mc ∧
        (l.foldl (boundaryStep tr mc) acc).2 = lastIndexOf b.1 tr + (b.1.length : Int) := by
  intro l
  induction l with
  | nil => intro acc; exact Or.inl rfl
  | cons b rest ih =>
    intro acc
    rw [List.foldl_cons]
    by_cases hq : 10 * lastIndexOf b.1 tr > 7 * mc
    · by_cases hs : acc.1 < b.2 * ((lastIndexOf b.1 tr : ℚ) / (mc : ℚ))
      · rw [boundaryStep_take hq hs]
        rcases ih (b.2 * ((lastIndexOf b.1 tr : ℚ) / (mc : ℚ)),
            lastIndexOf b.1 tr + (b.1.length : Int)) with h | ⟨c, hc, hqc, hec⟩
        · exact Or.inr ⟨b, List.mem_cons_self b rest, hq, h⟩
        · exact Or.inr ⟨c, List.mem_cons_of_mem b hc, hqc, hec⟩
      · rw [boundaryStep_keep hs]
        rcases ih acc with h | ⟨c, hc, hqc, hec⟩
        · exact Or.inl h
        · exact Or.inr ⟨c, List.mem_cons_of_mem b hc, hqc, hec⟩
    · rw [boundaryStep_skip hq]
      rcases ih acc with h | ⟨c, hc, hqc, hec⟩
      · exact Or.inl h
      · exact Or.inr ⟨c, List.mem_cons_of_mem b hc, hqc, hec⟩

/-- Helper: with a non-negative window the chosen cut point never exceeds
the character budget. -/
theorem bestCutPoint_le (text : List Char) (mc : Int) (hmc : 0 ≤ mc) :
    (bestCutPoint text mc).toNat ≤ mc.toNat := by
  unfold bestCutPoint
  rcases foldl_boundaryStep_cut (text.take mc.toNat) mc boundarySeps (0, mc) with h | ⟨b, hb, hq, he⟩
  · rw [h]
  · rw [he]
    have h0 : 0 ≤ lastIndexOf b.1 (text.take mc.toNat) := by omega
    have hbd := lastIndexOf_nonneg_bound b.1 (text.take mc.toNat) h0
    have hlen : ((text.take mc.toNat).length : Int) ≤ (mc.toNat : Int) := by
      rw [List.length_take]
      omega
    omega

/-- C2 (amended): re-truncating the output of `_truncateText` with the same
budget reports no truncation whenever the budget is at least twice the
length of the appended notice (`n ≥ 116`); for small budgets the appended
notice itself can exceed the budget, so unrestricted idempotence fails. -/
theorem truncate_idempotent_for_large_budget :
    ∀ (text : List Char) (n : Int), 2 * (truncationNotice.length : Int) ≤ n →
      (truncateText (truncateText text n).text n).wasTruncated = false := by
  intro text n hn
  have hnlen : truncationNotice.length = 58 := by decide
  have hn116 : (116 : Int) ≤ n := by omega
  by_cases h1 : (estimateTokens text : Int) ≤ n
  · have e : truncateText text n = ⟨text, false⟩ := by
      unfold truncateText
      rw [if_pos h1]
    rw [e, e]
  · by_cases h2 : (text.length : Int) ≤ (7 * n).fdiv 2
    · have e : truncateText text n = ⟨text, false⟩ := by
        unfold truncateText
        rw [if_neg h1, if_pos h2]
      rw [e, e]
    · have e : truncateText text n
          = ⟨jsTrim (text.take (bestCutPoint text ((7 * n).fdiv 2)).toNat) ++ truncationNotice, true⟩ := by
        unfold truncateText
        rw [if_neg h1, if_neg h2]
      have efd := Int.fdiv_eq_ediv (7 * n) (by norm_num : (0:Int) ≤ 2)
      have hmc : (0:Int) ≤ (7 * n).fdiv 2 := by omega
      have hcut := bestCutPoint_le text ((7 * n).fdiv 2) hmc
      have htrim := jsTrim_length_le (text.take (bestCutPoint text ((7 * n).fdiv 2)).toNat)
      have htake : (text.take (bestCutPoint text ((7 * n).fdiv 2)).toNat).length
          ≤ ((7 * n).fdiv 2).toNat := by
        rw [List.length_take]
        omega
      have hout : (jsTrim (text.take (bestCutPoint text ((7 * n).fdiv 2)).toNat)
          ++ truncationNotice).length ≤ ((7 * n).fdiv 2).toNat + 58 := by
        rw [List.length_append, hnlen]
        omega
      have hest2 : (estimateTokens ((truncateText text n).text) : Int) ≤ n := by
        rw [e]
        show (estimateTokens (jsTrim (text.take (bestCutPoint text ((7 * n).fdiv 2)).toNat)
          ++ truncationNotice) : Int) ≤ n
        unfold estimateTokens
        omega
      rw [e] at hest2 ⊢
      unfold truncateText
      rw [if_pos hest2]

/-- Counterexample to C2: with budget 1 the truncated output (cut text plus
notice) is itself over budget, so the re-check still reports truncation. -/
theorem truncate_not_idempotent_counterexample :
    (truncateText (truncateText "aaaaa".data 1).text 1).wasTruncated = true := by decide

/-- Witness for C2 (amended): a concrete round trip at the threshold budget
116 reports no truncation. -/
theorem truncate_idempotent_witness :
    (truncateText (truncateText "hello".data 116).text 116).wasTruncated = false :=
  truncate_idempotent_for_large_budget "hello".data 116 (by decide)

/-- Helper: the running best score never decreases along the boundary
loop. -/
theorem foldl_boundaryStep_fst_mono (tr : List Char) (mc : Int) :
    ∀ (l : List (List Char × ℚ)) (acc : ℚ × Int),
      acc.1 ≤ (List.foldl (boundaryStep tr mc) acc l).1 := by
  intro l
  induction l with
  | nil => intro acc; exact le_refl _
  | cons b rest ih =>
    intro acc
    rw [List.foldl_cons]
    by_cases hq : 10 * lastIndexOf b.1 tr > 7 * mc
    · by_cases hs : acc.1 < b.2 * ((lastIndexOf b.1 tr : ℚ) / (mc : ℚ))
      · rw [boundaryStep_take hq hs]
        exact le_trans hs.le (ih _)
      · rw [boundaryStep_keep hs]
        exact ih acc
    · rw [boundaryStep_skip hq]
      exact ih acc

/-- Helper: the final best score dominates the score of every qualifying
boundary in the list. -/
theorem foldl_boundaryStep_fst_ge_score (tr : List Char) (mc : Int) :
    ∀ (l : List (List Char × ℚ)) (acc : ℚ × Int) (b : List Char × ℚ), b ∈ l →
      10 * lastIndexOf b.1 tr > 7 * mc →
      b.2 * ((lastIndexOf b.1 tr : ℚ) / (mc : ℚ)) ≤ (List.foldl (boundaryStep tr mc) acc l).1 := by
  intro l
  induction l with
  | nil => intro acc b hb; exact absurd hb (List.not_mem_nil b)
  | cons c rest ih =>
    intro acc b hb hq
    rw [List.foldl_cons]
    rcases List.mem_cons.1 hb with hbc | hmem
    · subst hbc
      by_cases hs : acc.1 < b.2 * ((lastIndexOf b.1 tr : ℚ) / (mc : ℚ))
      · rw [boundaryStep_take hq hs]
        exact le_trans (le_refl _) (foldl_boundaryStep_fst_mono tr mc rest _)
      · rw [boundaryStep_keep hs]
        exact le_trans (not_lt.1 hs) (foldl_boundaryStep_fst_mono tr mc rest acc)
    · exact ih _ b hmem hq

/-- Helper: the boundary loop either keeps its initial state or ends at the
score/cut pair of some qualifying boundary. -/
theorem foldl_boundaryStep_pair (tr : List Char) (mc : Int) :
    ∀ (l : List (List Char × ℚ)) (acc : ℚ × Int),
      List.foldl (boundaryStep tr mc) acc l = acc ∨
      ∃ b ∈ l, 10 * lastIndexOf b.1 tr > 7 * mc ∧
        List.foldl (boundaryStep tr mc) acc l
          = (b.2 * ((lastIndexOf b.1 tr : ℚ) / (mc : ℚ)), lastIndexOf b.1 tr + (b.1.length : Int)) := by
  intro l
  induction l with
  | nil => intro acc; exact Or.inl rfl
  | cons b rest ih =>
    intro acc
    rw [List.foldl_cons]
    by_cases hq : 10 * lastIndexOf b.1 tr > 7 * mc
    · by_cases hs : acc.1 < b.2 * ((lastIndexOf b.1 tr : ℚ) / (mc : ℚ))
      · rw [boundaryStep_take hq hs]
        rcases ih (b.2 * ((lastIndexOf b.1 tr : ℚ) / (mc : ℚ)),
            lastIndexOf b.1 tr + (b.1.length : Int)) with h | ⟨c, hc, hqc, hec⟩
        · exact Or.inr ⟨b, List.mem_cons_self b rest, hq, h⟩
        · exact Or.inr ⟨c, List.mem_cons_of_mem b hc, hqc, hec⟩
      · rw [boundaryStep_keep hs]
        rcases ih acc with h | ⟨c, hc, hqc, hec⟩
        · exact Or.inl h
        · exact Or.inr ⟨c, List.mem_cons_of_mem b hc, hqc, hec⟩
    · rw [boundaryStep_skip hq]
      rcases ih acc with h | ⟨c, hc, hqc, hec⟩
      · exact Or.inl h
      · exact Or.inr ⟨c, List.mem_cons_of_mem b hc, hqc, hec⟩

/-- Helper: when no boundary qualifies the loop keeps its initial state. -/
theorem foldl_boundaryStep_skip_all (tr : List Char) (mc : Int) :
    ∀ (l : List (List Char × ℚ)) (acc : ℚ × Int),
      (∀ b ∈ l, ¬ 10 * lastIndexOf b.1 tr > 7 * mc) →
      List.foldl (boundaryStep tr mc) acc l = acc := by
  intro l
  induction l with
  | nil => intro acc _; rfl
  | cons b rest ih =>
    intro acc h
    rw [List.foldl_cons, boundaryStep_skip (h b (List.mem_cons_self b rest))]
    exact ih acc (fun c hc => h c (List.mem_cons_of_mem b hc))

/-- Helper: every separator weight in the boundary table is positive. -/
theorem boundaryWeight_pos : ∀ b ∈ boundarySeps, (0:ℚ) < b.2 := by
  intro b hb
  fin_cases hb <;> norm_num

/-- The concrete text of the claim's 40%/90% scenario: with a budget of 20
tokens (70 characters) its paragraph break sits at index 28 (40% of the
window) and its sentence end at index 63 (90% of the window). -/
def boundaryDemoText : List Char :=
  "abcdefghijklmnopqrstuvwxyzab\n\ncdefghijklmnopqrstuvwxyzabcdefghi. jklmnopqrstuvwxy".data

/-- C1 (amended): under the claim's hypotheses the cut is at the character
budget when no separator's last occurrence lies strictly after 70% of the
window, and otherwise at `lastIndex + separator length` of a qualifying
separator whose `weight * (position / charBudget)` score dominates every
qualifying separator (qualification is strictly-after, not at-or-after);
concretely, with a paragraph break at 40% and a sentence end at 90% of the
budget the sentence end is selected. -/
theorem truncate_boundary_selection :
    (∀ (text : List Char) (m : Int), 0 < m → m < (estimateTokens text : Int) →
      (7 * m).fdiv 2 < (text.length : Int) →
      ((∀ b ∈ boundarySeps,
          ¬ 10 * lastIndexOf b.1 (text.take ((7 * m).fdiv 2).toNat) > 7 * ((7 * m).fdiv 2)) →
        (truncateText text m).text
          = jsTrim (text.take ((7 * m).fdiv 2).toNat) ++ truncationNotice) ∧
      ((∃ b ∈ boundarySeps,
          10 * lastIndexOf b.1 (text.take ((7 * m).fdiv 2).toNat) > 7 * ((7 * m).fdiv 2)) →
        ∃ b ∈ boundarySeps,
          10 * lastIndexOf b.1 (text.take ((7 * m).fdiv 2).toNat) > 7 * ((7 * m).fdiv 2) ∧
          (truncateText text m).text
            = jsTrim (text.take (lastIndexOf b.1 (text.take ((7 * m).fdiv 2).toNat)
                + (b.1.length : Int)).toNat) ++ truncationNotice ∧
          ∀ c ∈ boundarySeps,
            10 * lastIndexOf c.1 (text.take ((7 * m).fdiv 2).toNat) > 7 * ((7 * m).fdiv 2) →
            c.2 * ((lastIndexOf c.1 (text.take ((7 * m).fdiv 2).toNat) : ℚ)
                / (((7 * m).fdiv 2 : Int) : ℚ))
              ≤ b.2 * ((lastIndexOf b.1 (text.take ((7 * m).fdiv 2).toNat) : ℚ)
                / (((7 * m).fdiv 2 : Int) : ℚ)))) ∧
    (lastIndexOf "\n\n".data (boundaryDemoText.take 70) = 28 ∧
     lastIndexOf ". ".data (boundaryDemoText.take 70) = 63 ∧
     (truncateText boundaryDemoText 20).text
       = "abcdefghijklmnopqrstuvwxyzab\n\ncdefghijklmnopqrstuvwxyzabcdefghi.".data
         ++ truncationNotice) := by
  constructor
  · intro text m hm hest hlen
    have hestn : ¬ (estimateTokens text : Int) ≤ m := by omega
    have hlenn : ¬ (text.length : Int) ≤ (7 * m).fdiv 2 := by omega
    have et : truncateText text m
        = ⟨jsTrim (text.take (bestCutPoint text ((7 * m).fdiv 2)).toNat) ++ truncationNotice, true⟩ := by
      unfold truncateText
      rw [if_neg hestn, if_neg hlenn]
    constructor
    · intro hnone
      have hcut : bestCutPoint text ((7 * m).fdiv 2) = (7 * m).fdiv 2 := by
        unfold bestCutPoint
        rw [foldl_boundaryStep_skip_all (text.take ((7 * m).fdiv 2).toNat) ((7 * m).fdiv 2)
          boundarySeps (0, (7 * m).fdiv 2) hnone]
      rw [et, hcut]
    · rintro ⟨b0, hb0, hq0⟩
      have efd := Int.fdiv_eq_ediv (7 * m) (by norm_num : (0:Int) ≤ 2)
      have hmcpos : 0 < (7 * m).fdiv 2 := by omega
      have hscorepos : ∀ c ∈ boundarySeps,
          10 * lastIndexOf c.1 (text.take ((7 * m).fdiv 2).toNat) > 7 * ((7 * m).fdiv 2) →
          0 < c.2 * ((lastIndexOf c.1 (text.take ((7 * m).fdiv 2).toNat) : ℚ)
            / (((7 * m).fdiv 2 : Int) : ℚ)) := by
        intro c hc hqc
        have hli : (1:Int) ≤ lastIndexOf c.1 (text.take ((7 * m).fdiv 2).toNat) := by omega
        have h1 : (0:ℚ) < (lastIndexOf c.1 (text.take ((7 * m).fdiv 2).toNat) : ℚ) := by
          exact_mod_cast lt_of_lt_of_le zero_lt_one hli
        have h2 : (0:ℚ) < (((7 * m).fdiv 2 : Int) : ℚ) := by exact_mod_cast hmcpos
        exact mul_pos (boundaryWeight_pos c hc) (div_pos h1 h2)
      rcases foldl_boundaryStep_pair (text.take ((7 * m).fdiv 2).toNat) ((7 * m).fdiv 2)
          boundarySeps (0, (7 * m).fdiv 2) with hp | ⟨b, hb, hq, he⟩
      · exfalso
        have hge := foldl_boundaryStep_fst_ge_score (text.take ((7 * m).fdiv 2).toNat)
          ((7 * m).fdiv 2) boundarySeps (0, (7 * m).fdiv 2) b0 hb0 hq0
        rw [hp] at hge
        exact absurd hge (not_le.2 (hscorepos b0 hb0 hq0))
      · refine ⟨b, hb, hq, ?_, ?_⟩
        · have hcut : bestCutPoint text ((7 * m).fdiv 2)
              = lastIndexOf b.1 (text.take ((7 * m).fdiv 2).toNat) + (b.1.length : Int) := by
            unfold bestCutPoint
            rw [he]
          rw [et, hcut]
        · intro c hc hqc
          have hge := foldl_boundaryStep_fst_ge_score (text.take ((7 * m).fdiv 2).toNat)
            ((7 * m).fdiv 2) boundarySeps (0, (7 * m).fdiv 2) c hc hqc
          rw [he] at hge
          exact hge
  · refine ⟨by decide, by decide, ?_⟩
    have hli1 : lastIndexOf "\n\n".data (boundaryDemoText.take ((7 * (20:Int)).fdiv 2).toNat) = 28 := by decide
    have hli2 : lastIndexOf ". ".data (boundaryDemoText.take ((7 * (20:Int)).fdiv 2).toNat) = 63 := by decide
    have hli3 : lastIndexOf "\n".data (boundaryDemoText.take ((7 * (20:Int)).fdiv 2).toNat) = 29 := by decide
    have hli4 : lastIndexOf ", ".data (boundaryDemoText.take ((7 * (20:Int)).fdiv 2).toNat) = -1 := by decide
    have hli5 : lastIndexOf " ".data (boundaryDemoText.take ((7 * (20:Int)).fdiv 2).toNat) = 64 := by decide
    have hcut : bestCutPoint boundaryDemoText ((7 * (20:Int)).fdiv 2) = 65 := by
      unfold bestCutPoint
      rw [show boundarySeps = [("\n\n".data, (1:ℚ)), (". ".data, 9/10), ("\n".data, 8/10),
        (", ".data, 6/10), (" ".data, 5/10)] from rfl]
      rw [List.foldl_cons, boundaryStep_skip (by rw [hli1]; decide)]
      rw [List.foldl_cons, boundaryStep_take (by rw [hli2]; decide) (by
        rw [hli2]
        show (0:ℚ) < 9/10 * (((63:Int) : ℚ) / (((70:Int)) : ℚ))
        push_cast
        norm_num)]
      rw [hli2]
      rw [List.foldl_cons, boundaryStep_keep (by
        rw [hli3]
        show ¬ ((". ".data, (9:ℚ)/10).2 * (((63:Int) : ℚ) / (((70:Int)) : ℚ))
          < 8/10 * (((29:Int) : ℚ) / (((70:Int)) : ℚ)))
        push_cast
        norm_num)]
      rw [List.foldl_cons, boundaryStep_keep (by
        rw [hli4]
        show ¬ ((". ".data, (9:ℚ)/10).2 * (((63:Int) : ℚ) / (((70:Int)) : ℚ))
          < 6/10 * (((-1:Int) : ℚ) / (((70:Int)) : ℚ)))
        push_cast
        norm_num)]
      rw [List.foldl_cons, boundaryStep_keep (by
        rw [hli5]
        show ¬ ((". ".data, (9:ℚ)/10).2 * (((63:Int) : ℚ) / (((70:Int)) : ℚ))
          < 5/10 * (((64:Int) : ℚ) / (((70:Int)) : ℚ)))
        push_cast
        norm_num)]
      rw [List.foldl_nil]
      show (63 : Int) + (". ".data.length : Int) = 65
      decide
    unfold truncateText
    rw [if_neg (by decide), if_neg (by decide)]
    rw [hcut]
    decide

/-- Modelled from the claim's words: the same boundary search but with the
at-or-after (`≥`) 70%-threshold the claim describes, for comparison with the
code's strictly-after (`>`) comparison. -/
def boundaryStepAtOrAfter (tr : List Char) (mc : Int) (acc : ℚ × Int) (b : List Char × ℚ) : ℚ × Int :=
  let li := lastIndexOf b.1 tr
  if 10 * li ≥ 7 * mc then
    let score := b.2 * ((li : ℚ) / (mc : ℚ))
    if acc.1 < score then (score, li + (b.1.length : Int)) else acc
  else acc

/-- Modelled from the claim's words: best cut point under the at-or-after
threshold. -/
def bestCutPointAtOrAfter (text : List Char) (mc : Int) : Int :=
  (boundarySeps.foldl (boundaryStepAtOrAfter (text.take mc.toNat) mc) (0, mc)).2

/-- Modelled from the claim's words: the truncation routine the claim
describes, differing from `truncateText` only in the at-or-after
threshold. -/
def truncateTextAtOrAfter (text : List Char) (maxTokens : Int) : TruncResult :=
  if (estimateTokens text : Int) ≤ maxTokens then ⟨text, false⟩
  else
    let maxChars : Int := (7 * maxTokens).fdiv 2
    if (text.length : Int) ≤ maxChars then ⟨text, false⟩
    else
      let cut := bestCutPointAtOrAfter text maxChars
      ⟨jsTrim (text.take cut.toNat) ++ truncationNotice, true⟩

/-- Helper: a boundary failing the at-or-after guard leaves the loop state
unchanged. -/
theorem boundaryStepAtOrAfter_skip {tr : List Char} {mc : Int} {acc : ℚ × Int} {b : List Char × ℚ}
    (hq : ¬ 10 * lastIndexOf b.1 tr ≥ 7 * mc) :
    boundaryStepAtOrAfter tr mc acc b = acc := by
  unfold boundaryStepAtOrAfter
  rw [if_neg hq]

/-- Helper: a boundary passing the at-or-after guard with a strictly better
score replaces the loop state. -/
theorem boundaryStepAtOrAfter_take {tr : List Char} {mc : Int} {acc : ℚ × Int} {b : List Char × ℚ}
    (hq : 10 * lastIndexOf b.1 tr ≥ 7 * mc)
    (h : acc.1 < b.2 * ((lastIndexOf b.1 tr : ℚ) / (mc : ℚ))) :
    boundaryStepAtOrAfter tr mc acc b
      = (b.2 * ((lastIndexOf b.1 tr : ℚ) / (mc : ℚ)), lastIndexOf b.1 tr + (b.1.length : Int)) := by
  unfold boundaryStepAtOrAfter
  rw [if_pos hq, if_pos h]

/-- Counterexample to C1: on `"abcdefg hijkl"` with budget 3 the word break
sits exactly at 70% of the 10-character window; the claim's at-or-after rule
cuts at the word break (output `"abcdefg"` + notice) while the code's strict
comparison rejects it and cuts at the character budget (output
`"abcdefg hi"` + notice). -/
theorem boundary_threshold_counterexample :
    (3:Int) < (estimateTokens "abcdefg hijkl".data : Int) ∧
    (7 * (3:Int)).fdiv 2 < ("abcdefg hijkl".data.length : Int) ∧
    truncateText "abcdefg hijkl".data 3 = ⟨"abcdefg hi".data ++ truncationNotice, true⟩ ∧
    truncateTextAtOrAfter "abcdefg hijkl".data 3 = ⟨"abcdefg".data ++ truncationNotice, true⟩ ∧
    truncateText "abcdefg hijkl".data 3 ≠ truncateTextAtOrAfter "abcdefg hijkl".data 3 := by
  have hli1 : lastIndexOf "\n\n".data ("abcdefg hijkl".data.take ((7 * (3:Int)).fdiv 2).toNat) = -1 := by decide
  have hli2 : lastIndexOf ". ".data ("abcdefg hijkl".data.take ((7 * (3:Int)).fdiv 2).toNat) = -1 := by decide
  have hli3 : lastIndexOf "\n".data ("abcdefg hijkl".data.take ((7 * (3:Int)).fdiv 2).toNat) = -1 := by decide
  have hli4 : lastIndexOf ", ".data ("abcdefg hijkl".data.take ((7 * (3:Int)).fdiv 2).toNat) = -1 := by decide
  have hli5 : lastIndexOf " ".data ("abcdefg hijkl".data.take ((7 * (3:Int)).fdiv 2).toNat) = 7 := by decide
  have hcode : truncateText "abcdefg hijkl".data 3 = ⟨"abcdefg hi".data ++ truncationNotice, true⟩ := by
    decide
  have hcutS : bestCutPointAtOrAfter "abcdefg hijkl".data ((7 * (3:Int)).fdiv 2) = 8 := by
    unfold bestCutPointAtOrAfter
    rw [show boundarySeps = [("\n\n".data, (1:ℚ)), (". ".data, 9/10), ("\n".data, 8/10),
      (", ".data, 6/10), (" ".data, 5/10)] from rfl]
    rw [List.foldl_cons, boundaryStepAtOrAfter_skip (by rw [hli1]; decide)]
    rw [List.foldl_cons, boundaryStepAtOrAfter_skip (by rw [hli2]; decide)]
    rw [List.foldl_cons, boundaryStepAtOrAfter_skip (by rw [hli3]; decide)]
    rw [List.foldl_cons, boundaryStepAtOrAfter_skip (by rw [hli4]; decide)]
    rw [List.foldl_cons, boundaryStepAtOrAfter_take (by rw [hli5]; decide) (by
      rw [hli5]
      show (0:ℚ) < 5/10 * (((7:Int) : ℚ) / (((10:Int)) : ℚ))
      push_cast
      norm_num)]
    rw [hli5]
    rw [List.foldl_nil]
    show (7 : Int) + (" ".data.length : Int) = 8
    decide
  have hspec : truncateTextAtOrAfter "abcdefg hijkl".data 3
      = ⟨"abcdefg".data ++ truncationNotice, true⟩ := by
    unfold truncateTextAtOrAfter
    rw [if_neg (by decide), if_neg (by decide)]
    rw [hcutS]
    decide
  refine ⟨by decide, by decide, hcode, hspec, ?_⟩
  rw [hcode, hspec]
  decide

/-- Witness for C1 (amended): a concrete text with no separator at all is
cut exactly at the character budget. -/
theorem truncate_boundary_selection_witness :
    (truncateText "aaaaaaaaaaaaa".data 3).text
      = jsTrim ("aaaaaaaaaaaaa".data.take ((7 * (3:Int)).fdiv 2).toNat) ++ truncationNotice :=
  (truncate_boundary_selection.1 "aaaaaaaaaaaaa".data 3 (by decide) (by decide) (by decide)).1
    (by decide)
